import Mathlib

/-
Verification of the ProofPath evidence/confidence/ablation core of the
MedRAG wrapper service (services/medrag/main.py).

Modelling conventions:
* Python floats are modelled as rationals (ℚ); all arithmetic in the
  functions under study is sums, products, divisions, min/max and a final
  round-to-3-decimals, so rational arithmetic reproduces the intended
  values exactly.  `round3` models Python `round(x, 3)`; Python resolves
  exact halves to even while `round` here resolves them upward, which
  changes nothing below: every concrete value used avoids exact halves
  and every general statement only uses monotonicity and fixed points of
  the rounding map, which both conventions share.
* Python dicts for retrieved snippets are modelled as a structure of
  optional fields; `dict.get(k, d)` becomes `Option.getD`.
* The external engine call inside the orchestrator is modelled as an
  explicit `Except` argument: `.error` corresponds to the engine raising.
-/

/-- One retrieved snippet (a Python dict); every key the service reads is an
optional field.  `end_` models the `"end"` key (reserved word in Lean). -/
structure Snippet where
  id : Option String := none
  source_id : Option String := none
  url : Option String := none
  title : Option String := none
  date : Option String := none
  content : Option String := none
  start : Option Int := none
  end_ : Option Int := none
deriving Repr, DecidableEq

/-- A ProofPath evidence reference (the EvidenceRef pydantic model). -/
structure EvidenceRef where
  id : String
  source_id : String
  doc_url : Option String
  title : Option String
  published_at : Option String
  span : String
  similarity : ℚ
  weight : ℚ
  recency_signal : Option ℚ
deriving Repr, DecidableEq

/-- Python `round(x, 3)`: scale by 1000, round to an integer, scale back. -/
def round3 (q : ℚ) : ℚ := (round (q * 1000) : ℤ) / 1000

/-- Insert one element into a descending-sorted list of rationals. -/
def insertDesc (x : ℚ) : List ℚ → List ℚ
  | [] => [x]
  | y :: ys => if y ≤ x then x :: y :: ys else y :: insertDesc x ys

/-- Descending sort, modelling Python `sorted(scores, reverse=True)`
(on a list of numbers a stable sort and any other sort agree). -/
def sortDesc : List ℚ → List ℚ
  | [] => []
  | x :: xs => insertDesc x (sortDesc xs)

/-- `calculate_answer_confidence` from services/medrag/main.py.
The first argument is accepted (as in the source) but never read. -/
def calculate_answer_confidence (retrieved_snippets : List Snippet)
    (scores : List ℚ) : ℚ :=
  if scores.isEmpty || scores.length < 2 then 0.5
  else
    let top_scores := (sortDesc scores).take 5
    let score_mean := top_scores.sum / (top_scores.length : ℚ)
    let score_variance :=
      (top_scores.map (fun s => (s - score_mean) ^ 2)).sum / (top_scores.length : ℚ)
    let base_confidence := min 0.95 (max 0.2 score_mean)
    let variance_penalty := min 0.3 (score_variance * 2)
    let confidence := max 0.2 (base_confidence - variance_penalty)
    round3 confidence

/-- `clamp(x, lo, hi)` as the specification writes it. -/
def clamp (x lo hi : ℚ) : ℚ := max lo (min hi x)

/-- Top-5 selection as the specification describes it. -/
def topScoresOf (scores : List ℚ) : List ℚ := (sortDesc scores).take 5

/-- Arithmetic mean of a list of rationals. -/
def meanOf (l : List ℚ) : ℚ := l.sum / (l.length : ℚ)

/-- Population variance of a list of rationals. -/
def popVarianceOf (l : List ℚ) : ℚ :=
  (l.map fun s => (s - meanOf l) ^ 2).sum / (l.length : ℚ)

/-- The confidence formula exactly as the specification states it:
`round(max(0.2, clamp(m, 0.2, 0.95) - min(0.3, v * 2)), 3)`. -/
def specConfidence (scores : List ℚ) : ℚ :=
  round3 (max 0.2 (clamp (meanOf (topScoresOf scores)) 0.2 0.95
    - min 0.3 (popVarianceOf (topScoresOf scores) * 2)))

theorem code_clamp (x : ℚ) : min 0.95 (max 0.2 x) = clamp x 0.2 0.95 := by
  rw [min_max_distrib_left, clamp]
  norm_num

theorem round3_mono {a b : ℚ} (h : a ≤ b) : round3 a ≤ round3 b := by
  unfold round3
  have hr : round (a * 1000) ≤ round (b * 1000) := by
    rw [round_eq, round_eq]
    exact Int.floor_le_floor (by linarith)
  have hr' : ((round (a * 1000) : ℤ) : ℚ) ≤ ((round (b * 1000) : ℤ) : ℚ) := by
    exact_mod_cast hr
  linarith

theorem round3_point2 : round3 0.2 = 0.2 := by norm_num [round3]

theorem round3_point95 : round3 0.95 = 0.95 := by norm_num [round3]

theorem popVarianceOf_nonneg (l : List ℚ) : 0 ≤ popVarianceOf l := by
  unfold popVarianceOf
  apply div_nonneg
  · apply List.sum_nonneg
    intro x hx
    rcases List.mem_map.mp hx with ⟨s, _, rfl⟩
    exact sq_nonneg _
  · exact Nat.cast_nonneg _

theorem confidence_unfold (snips : List Snippet) (scores : List ℚ)
    (h : 2 ≤ scores.length) :
    calculate_answer_confidence snips scores =
      round3 (max 0.2 (min 0.95 (max 0.2 (meanOf (topScoresOf scores)))
        - min 0.3 (popVarianceOf (topScoresOf scores) * 2))) := by
  have h0 : scores ≠ [] := by
    intro e
    rw [e] at h
    simp at h
  have hcond : (scores.isEmpty || decide (scores.length < 2)) = false := by
    simp [List.isEmpty_iff, h0]
    omega
  unfold calculate_answer_confidence
  simp only [hcond, Bool.false_eq_true, if_false, topScoresOf, meanOf, popVarianceOf]

/-- C2: for score sequences of length at least 2, the code computes exactly the
specification formula (top-5 mean/population-variance, clamp, variance penalty,
floor, 3-decimal rounding); in particular scores `[0.95, 0.75]` yield `0.83`. -/
theorem calculate_answer_confidence_matches_spec_formula
    (snips : List Snippet) (scores : List ℚ) (h : 2 ≤ scores.length) :
    calculate_answer_confidence snips scores = specConfidence scores ∧
    calculate_answer_confidence snips [0.95, 0.75] = 0.83 := by
  constructor
  · rw [confidence_unfold snips scores h, specConfidence, code_clamp]
  · norm_num [calculate_answer_confidence, sortDesc, insertDesc, round3]

theorem calculate_answer_confidence_matches_spec_formula_witness :
    2 ≤ ([0.9, 0.8, 0.7] : List ℚ).length ∧
    calculate_answer_confidence [] [0.9, 0.8, 0.7] = specConfidence [0.9, 0.8, 0.7] ∧
    calculate_answer_confidence [] [0.95, 0.75] = 0.83 :=
  ⟨by norm_num,
   (calculate_answer_confidence_matches_spec_formula [] [0.9, 0.8, 0.7]
     (by norm_num)).1,
   (calculate_answer_confidence_matches_spec_formula [] [0.9, 0.8, 0.7]
     (by norm_num)).2⟩

/-- C4: with at least 2 scores the returned confidence lies in [0.2, 0.95];
with fewer than 2 scores it is exactly 0.5. -/
theorem calculate_answer_confidence_bounds (snips : List Snippet) (scores : List ℚ) :
    (2 ≤ scores.length →
      0.2 ≤ calculate_answer_confidence snips scores ∧
      calculate_answer_confidence snips scores ≤ 0.95) ∧
    (scores.length < 2 → calculate_answer_confidence snips scores = 0.5) := by
  constructor
  · intro h
    rw [confidence_unfold snips scores h]
    have hv : 0 ≤ popVarianceOf (topScoresOf scores) := popVarianceOf_nonneg _
    have hpen : (0:ℚ) ≤ min 0.3 (popVarianceOf (topScoresOf scores) * 2) :=
      le_min (by norm_num) (by linarith)
    have hbase : min 0.95 (max 0.2 (meanOf (topScoresOf scores))) ≤ 0.95 :=
      min_le_left _ _
    constructor
    · calc (0.2:ℚ) = round3 0.2 := round3_point2.symm
        _ ≤ _ := round3_mono (le_max_left _ _)
    · calc round3 _ ≤ round3 0.95 :=
            round3_mono (max_le (by norm_num) (by linarith))
        _ = 0.95 := round3_point95
  · intro h
    unfold calculate_answer_confidence
    have hcond : (scores.isEmpty || decide (scores.length < 2)) = true := by
      simp
      omega
    simp only [hcond, if_true]

theorem calculate_answer_confidence_bounds_witness :
    (0.2 ≤ calculate_answer_confidence [] [0.9, 0.4] ∧
      calculate_answer_confidence [] [0.9, 0.4] ≤ 0.95) ∧
    calculate_answer_confidence [] [0.9] = 0.5 :=
  ⟨(calculate_answer_confidence_bounds [] [0.9, 0.4]).1 (by norm_num),
   (calculate_answer_confidence_bounds [] [0.9]).2 (by norm_num)⟩

/-- C10: the confidence value depends only on the scores argument — two calls
with the same scores but different retrieved snippets return equal values. -/
theorem calculate_answer_confidence_noninterference
    (s1 s2 : List Snippet) (scores : List ℚ) :
    calculate_answer_confidence s1 scores = calculate_answer_confidence s2 scores :=
  rfl

/-- One iteration of the `build_evidence_trail` loop: the EvidenceRef built for
the snippet/score pair at enumeration index `i`, with `n` the score count. -/
def mkEvidenceRef (n : ℚ) (i : Nat) (snippet : Snippet) (score : ℚ) : EvidenceRef :=
  let weight := max 0.1 ((n - (i : ℚ)) / n) * min 1 score
  let spanStart := snippet.start.getD 0
  let spanEnd := snippet.end_.getD ((snippet.content.getD "").length : Int)
  { id := "passage_" ++ toString i
    source_id := snippet.id.getD ("doc_" ++ toString i)
    doc_url := snippet.url
    title := some (snippet.title.getD "Unknown Source")
    published_at := snippet.date
    span := "chars_" ++ toString spanStart ++ "_" ++ toString spanEnd
    similarity := min 1 (max 0 score)
    weight := round3 weight
    recency_signal := none }

/-- The enumerated loop of `build_evidence_trail`: `i` is the running
enumeration index. -/
def buildTrailAux (n : ℚ) : Nat → List (Snippet × ℚ) → List EvidenceRef
  | _, [] => []
  | i, (snippet, score) :: rest =>
    mkEvidenceRef n i snippet score :: buildTrailAux n (i + 1) rest

/-- `build_evidence_trail` from services/medrag/main.py: iterate over
`zip(retrieved_snippets, scores)` with `enumerate`, using `len(scores)` in the
rank-decay term. -/
def build_evidence_trail (retrieved_snippets : List Snippet) (scores : List ℚ) :
    List EvidenceRef :=
  buildTrailAux (scores.length : ℚ) 0 (retrieved_snippets.zip scores)

theorem buildTrailAux_length (n : ℚ) (i : Nat) (l : List (Snippet × ℚ)) :
    (buildTrailAux n i l).length = l.length := by
  induction l generalizing i with
  | nil => rfl
  | cons p rest ih => simp [buildTrailAux, ih]

theorem buildTrailAux_getElem (n : ℚ) (i : Nat) (l : List (Snippet × ℚ))
    (j : Nat) (hj : j < l.length) (hj2 : j < (buildTrailAux n i l).length) :
    (buildTrailAux n i l)[j] = mkEvidenceRef n (i + j) (l[j].1) (l[j].2) := by
  induction l generalizing i j with
  | nil => simp at hj
  | cons p rest ih =>
    cases j with
    | zero => simp [buildTrailAux]
    | succ k =>
      have hk : k < rest.length := by simpa using hj
      have hk2 : k < (buildTrailAux n (i + 1) rest).length := by
        rw [buildTrailAux_length]; exact hk
      show (mkEvidenceRef n i p.1 p.2 :: buildTrailAux n (i + 1) rest)[k + 1] = _
      rw [List.getElem_cons_succ, ih (i + 1) k hk hk2]
      have : i + 1 + k = i + (k + 1) := by omega
      simp [this]

theorem build_evidence_trail_length (snippets : List Snippet) (scores : List ℚ)
    (h : snippets.length = scores.length) :
    (build_evidence_trail snippets scores).length = snippets.length := by
  rw [build_evidence_trail, buildTrailAux_length, List.length_zip, h, Nat.min_self]

theorem build_evidence_trail_getElem (snippets : List Snippet) (scores : List ℚ)
    (h : snippets.length = scores.length) (j : Nat) (hj : j < scores.length)
    (hj2 : j < (build_evidence_trail snippets scores).length) :
    (build_evidence_trail snippets scores)[j] =
      mkEvidenceRef (scores.length : ℚ) j
        (snippets.get ⟨j, by omega⟩) (scores.get ⟨j, hj⟩) := by
  have hzip : j < (snippets.zip scores).length := by
    rw [List.length_zip]; omega
  unfold build_evidence_trail at hj2 ⊢
  rw [buildTrailAux_getElem _ _ _ j hzip hj2, List.getElem_zip]
  simp

theorem round3_zero : round3 0 = 0 := by norm_num [round3]

theorem round3_one : round3 1 = 1 := by norm_num [round3]

theorem rankTerm_le_one (N : ℚ) (hN : 0 < N) (i : Nat) :
    max 0.1 ((N - (i : ℚ)) / N) ≤ 1 := by
  apply max_le (by norm_num)
  rw [div_le_one hN]
  have : (0 : ℚ) ≤ (i : ℚ) := Nat.cast_nonneg i
  linarith

theorem rankTerm_nonneg (N : ℚ) (i : Nat) :
    (0 : ℚ) ≤ max 0.1 ((N - (i : ℚ)) / N) :=
  le_trans (by norm_num) (le_max_left _ _)

theorem rankTerm_antitone (N : ℚ) (hN : 0 < N) {i j : Nat} (hij : i ≤ j) :
    max 0.1 ((N - (j : ℚ)) / N) ≤ max 0.1 ((N - (i : ℚ)) / N) := by
  apply max_le_max le_rfl
  rw [div_le_div_iff_of_pos_right hN]
  have : (i : ℚ) ≤ (j : ℚ) := Nat.cast_le.mpr hij
  linarith

/-- C3: the weight assigned to the passage at 0-indexed rank `i` out of `n`
scored passages is `max(0.1, (n - i) / n) * min(1.0, similarity_i)` rounded to
3 decimals. -/
theorem build_evidence_trail_weight_formula (snippets : List Snippet)
    (scores : List ℚ) (h : snippets.length = scores.length) (i : Nat)
    (hi : i < scores.length)
    (hi2 : i < (build_evidence_trail snippets scores).length) :
    ((build_evidence_trail snippets scores)[i]).weight =
      round3 (max 0.1 (((scores.length : ℚ) - (i : ℚ)) / (scores.length : ℚ))
        * min 1 (scores.get ⟨i, hi⟩)) := by
  rw [build_evidence_trail_getElem snippets scores h i hi hi2]
  rfl

theorem build_evidence_trail_weight_formula_witness :
    ((build_evidence_trail [{ id := some "doc_1" }] [0.9]).get
      ⟨0, by decide⟩).weight = 0.9 := by
  have hlen : 0 < (build_evidence_trail [{ id := some "doc_1" }] [0.9]).length := by
    decide
  have h := build_evidence_trail_weight_formula [{ id := some "doc_1" }] [0.9]
    rfl 0 (by norm_num) hlen
  rw [List.get_eq_getElem, h]
  norm_num [round3]

/-- C7: the trail has exactly one EvidenceRef per input passage, in input
order, with positional id `"passage_<i>"` (post-filter rank); the empty input
yields the empty trail. -/
theorem build_evidence_trail_positional_ids (snippets : List Snippet)
    (scores : List ℚ) (h : snippets.length = scores.length) :
    (build_evidence_trail snippets scores).length = snippets.length ∧
    (∀ i (hi2 : i < (build_evidence_trail snippets scores).length),
      ((build_evidence_trail snippets scores)[i]).id = "passage_" ++ toString i) ∧
    build_evidence_trail [] [] = ([] : List EvidenceRef) := by
  refine ⟨build_evidence_trail_length snippets scores h, ?_, rfl⟩
  intro i hi2
  have hi : i < scores.length := by
    have := build_evidence_trail_length snippets scores h
    omega
  rw [build_evidence_trail_getElem snippets scores h i hi hi2]
  rfl

theorem build_evidence_trail_positional_ids_witness :
    (build_evidence_trail [{ id := some "doc_1" }] [0.9]).length = 1 ∧
    ((build_evidence_trail [{ id := some "doc_1" }] [0.9]).get
      ⟨0, by decide⟩).id = "passage_0" := by
  have h := build_evidence_trail_positional_ids [{ id := some "doc_1" }] [0.9] rfl
  exact ⟨h.1, by rw [List.get_eq_getElem, h.2.1 0 (by decide)]; rfl⟩

/-- C8: with equal-length non-empty inputs whose similarities lie in [0, 1]
and are non-increasing in rank order, the produced weights are non-increasing
in rank and every weight lies in [0, 1]. -/
theorem build_evidence_trail_weights_monotone (snippets : List Snippet)
    (scores : List ℚ) (h : snippets.length = scores.length) (hne : scores ≠ [])
    (hrange : ∀ s ∈ scores, 0 ≤ s ∧ s ≤ 1)
    (hmono : ∀ i j (hi : i < scores.length) (hj : j < scores.length), i ≤ j →
      scores.get ⟨j, hj⟩ ≤ scores.get ⟨i, hi⟩) :
    (∀ i j (hi2 : i < (build_evidence_trail snippets scores).length)
        (hj2 : j < (build_evidence_trail snippets scores).length), i ≤ j →
      ((build_evidence_trail snippets scores)[j]).weight ≤
        ((build_evidence_trail snippets scores)[i]).weight) ∧
    (∀ r ∈ build_evidence_trail snippets scores, 0 ≤ r.weight ∧ r.weight ≤ 1) := by
  have hlen := build_evidence_trail_length snippets scores h
  have hN : (0 : ℚ) < (scores.length : ℚ) := by
    have h0 : scores.length ≠ 0 := by
      intro e
      exact hne (List.length_eq_zero.mp e)
    exact_mod_cast Nat.pos_of_ne_zero h0
  have hw : ∀ k (hk : k < scores.length)
      (hk2 : k < (build_evidence_trail snippets scores).length),
      ((build_evidence_trail snippets scores)[k]).weight =
        round3 (max 0.1 (((scores.length : ℚ) - (k : ℚ)) / (scores.length : ℚ))
          * min 1 (scores.get ⟨k, hk⟩)) := by
    intro k hk hk2
    rw [build_evidence_trail_getElem snippets scores h k hk hk2]
    rfl
  constructor
  · intro i j hi2 hj2 hij
    have hi : i < scores.length := by omega
    have hj : j < scores.length := by omega
    rw [hw i hi hi2, hw j hj hj2]
    apply round3_mono
    have hsij := hmono i j hi hj hij
    have hsj := hrange _ (scores.get_mem j hj)
    exact mul_le_mul (rankTerm_antitone _ hN hij) (min_le_min le_rfl hsij)
      (le_min (by norm_num) hsj.1) (rankTerm_nonneg _ _)
  · intro r hr
    rcases List.mem_iff_getElem.mp hr with ⟨k, hk2, rfl⟩
    have hk : k < scores.length := by omega
    rw [hw k hk hk2]
    have hs := hrange _ (scores.get_mem k hk)
    constructor
    · calc (0:ℚ) = round3 0 := round3_zero.symm
        _ ≤ _ := round3_mono
          (mul_nonneg (rankTerm_nonneg _ _) (le_min (by norm_num) hs.1))
    · calc round3 _ ≤ round3 1 := round3_mono
            (mul_le_one₀ (rankTerm_le_one _ hN _)
              (le_min (by norm_num) hs.1) (min_le_left _ _))
        _ = 1 := round3_one

theorem build_evidence_trail_weights_monotone_witness :
    ((build_evidence_trail [{ id := some "a" }, { id := some "b" }]
        [0.9, 0.8]).get
      ⟨1, by rw [build_evidence_trail_length _ _ rfl] <;> norm_num⟩).weight ≤
      ((build_evidence_trail [{ id := some "a" }, { id := some "b" }]
        [0.9, 0.8]).get
      ⟨0, by rw [build_evidence_trail_length _ _ rfl] <;> norm_num⟩).weight := by
  have h := build_evidence_trail_weights_monotone
    [{ id := some "a" }, { id := some "b" }] [0.9, 0.8] rfl
    (by simp)
    (by
      intro s hs
      simp only [List.mem_cons, List.not_mem_nil, or_false] at hs
      rcases hs with rfl | rfl <;> constructor <;> norm_num)
    (by
      intro i j hi hj hij
      have hi2 : i < 2 := by simpa using hi
      have hj2 : j < 2 := by simpa using hj
      interval_cases i <;> interval_cases j <;>
        first
          | exact le_refl _
          | exact absurd hij (by omega)
          | exact (by norm_num : (0.8 : ℚ) ≤ 0.9))
  rw [List.get_eq_getElem, List.get_eq_getElem]
  exact h.1 0 1
    (by rw [build_evidence_trail_length _ _ rfl] <;> norm_num)
    (by rw [build_evidence_trail_length _ _ rfl] <;> norm_num)
    (by omega)

/-- The removal test in the `apply_ablation` loop: some `ablate_id` equals the
snippet id, the source id (falling back to title, then `""`), or the positional
id built from the number of snippets kept so far. -/
def shouldRemoveSnippet (ablate : List String) (snippet : Snippet)
    (keptCount : Nat) : Bool :=
  let snippet_id := snippet.id.getD ""
  let source_id := snippet.source_id.getD (snippet.title.getD "")
  let passage_id := "passage_" ++ toString keptCount
  ablate.any fun ablate_id =>
    ablate_id == snippet_id || ablate_id == source_id || ablate_id == passage_id

/-- The filtering loop of `apply_ablation` with its three accumulators
(kept snippets, kept scores, removed count); the positional id is computed
from the current length of the kept-snippet accumulator. -/
def ablationLoop (ablate : List String) :
    List (Snippet × ℚ) → List Snippet → List ℚ → Nat →
      List Snippet × List ℚ × Nat
  | [], filtered_snippets, filtered_scores, removed_count =>
    (filtered_snippets, filtered_scores, removed_count)
  | (snippet, score) :: rest, filtered_snippets, filtered_scores, removed_count =>
    if shouldRemoveSnippet ablate snippet filtered_snippets.length then
      ablationLoop ablate rest filtered_snippets filtered_scores
        (removed_count + 1)
    else
      ablationLoop ablate rest (filtered_snippets ++ [snippet])
        (filtered_scores ++ [score]) removed_count

/-- `apply_ablation` from services/medrag/main.py.  The third component models
the Python return value: the source returns a *string* in every branch (the
empty string when no exclusion ids are given), never `None`, so both branches
are `some`. -/
def apply_ablation (retrieved_snippets : List Snippet) (scores : List ℚ)
    (ablate : List String) : List Snippet × List ℚ × Option String :=
  if ablate.isEmpty then (retrieved_snippets, scores, some "")
  else
    let r := ablationLoop ablate (retrieved_snippets.zip scores) [] [] 0
    (r.1, r.2.1, some ("Excluded " ++ toString r.2.2 ++
      " passages based on ablation criteria: " ++ String.intercalate ", " ablate))

/-- The removal criterion as the specification states it: at least one
exclusion identifier is exactly string-equal to the native id, the source id,
or the current positional id `"passage_<count-kept-so-far>"`. -/
def matchesExclusion (ablate : List String) (snippet : Snippet)
    (keptCount : Nat) : Prop :=
  ∃ a ∈ ablate, a = snippet.id.getD "" ∨
    a = snippet.source_id.getD (snippet.title.getD "") ∨
    a = "passage_" ++ toString keptCount

instance matchesExclusion.instDecidable (ablate : List String) (s : Snippet)
    (k : Nat) : Decidable (matchesExclusion ablate s k) := by
  unfold matchesExclusion
  infer_instance

/-- Reference filter following the specification's words: walk the passages in
order, drop exactly those matching an exclusion identifier, and advance the
kept-so-far counter only on kept passages. -/
def keptAfterAblation (ablate : List String) (keptCount : Nat) :
    List (Snippet × ℚ) → List (Snippet × ℚ)
  | [] => []
  | p :: rest =>
    if matchesExclusion ablate p.1 keptCount then
      keptAfterAblation ablate keptCount rest
    else
      p :: keptAfterAblation ablate (keptCount + 1) rest

/-- Number of passages the specification says are dropped. -/
def removedAfterAblation (ablate : List String) (keptCount : Nat) :
    List (Snippet × ℚ) → Nat
  | [] => 0
  | p :: rest =>
    if matchesExclusion ablate p.1 keptCount then
      removedAfterAblation ablate keptCount rest + 1
    else
      removedAfterAblation ablate (keptCount + 1) rest

theorem shouldRemove_iff (ablate : List String) (s : Snippet) (k : Nat) :
    shouldRemoveSnippet ablate s k = true ↔ matchesExclusion ablate s k := by
  unfold shouldRemoveSnippet matchesExclusion
  simp [List.any_eq_true, Bool.or_eq_true, beq_iff_eq, or_assoc]

theorem ablationLoop_spec (ablate : List String) (l : List (Snippet × ℚ)) :
    ∀ (fs : List Snippet) (fsc : List ℚ) (rc : Nat),
      ablationLoop ablate l fs fsc rc =
        (fs ++ (keptAfterAblation ablate fs.length l).map Prod.fst,
         fsc ++ (keptAfterAblation ablate fs.length l).map Prod.snd,
         rc + removedAfterAblation ablate fs.length l) := by
  induction l with
  | nil =>
    intro fs fsc rc
    simp [ablationLoop, keptAfterAblation, removedAfterAblation]
  | cons p rest ih =>
    intro fs fsc rc
    obtain ⟨s, sc⟩ := p
    by_cases hm : matchesExclusion ablate s fs.length
    · have hb : shouldRemoveSnippet ablate s fs.length = true :=
        (shouldRemove_iff _ _ _).mpr hm
      show (if shouldRemoveSnippet ablate s fs.length then _ else _) = _
      rw [if_pos hb, ih fs fsc (rc + 1)]
      simp [keptAfterAblation, removedAfterAblation, hm]
      omega
    · have hb : ¬ shouldRemoveSnippet ablate s fs.length = true := by
        rw [shouldRemove_iff]
        exact hm
      show (if shouldRemoveSnippet ablate s fs.length then _ else _) = _
      rw [if_neg hb, ih (fs ++ [s]) (fsc ++ [sc]) rc]
      simp [keptAfterAblation, removedAfterAblation, hm]

theorem keptAfterAblation_sublist (ablate : List String) :
    ∀ (k : Nat) (l : List (Snippet × ℚ)),
      (keptAfterAblation ablate k l).Sublist l := by
  intro k l
  induction l generalizing k with
  | nil => exact List.Sublist.refl _
  | cons p rest ih =>
    unfold keptAfterAblation
    by_cases hm : matchesExclusion ablate p.1 k
    · rw [if_pos hm]
      exact (ih k).cons p
    · rw [if_neg hm]
      exact (ih (k + 1)).cons₂ p

/-- C1: with equal-length inputs and a non-empty exclusion list,
`apply_ablation` keeps exactly the passages that the specification's removal
criterion keeps (removal iff some exclusion identifier is exactly equal to the
native id, the source id, or the current positional id), the kept
snippet/score lists are the first/second projections of the same kept pair
list (index correspondence), and the kept pairs form a sublist of the input
pairs (original relative order). -/
theorem apply_ablation_removal_criterion (snippets : List Snippet)
    (scores : List ℚ) (ablate : List String)
    (h : snippets.length = scores.length) (hne : ablate ≠ []) :
    (apply_ablation snippets scores ablate).1 =
      (keptAfterAblation ablate 0 (snippets.zip scores)).map Prod.fst ∧
    (apply_ablation snippets scores ablate).2.1 =
      (keptAfterAblation ablate 0 (snippets.zip scores)).map Prod.snd ∧
    (keptAfterAblation ablate 0 (snippets.zip scores)).Sublist
      (snippets.zip scores) := by
  have hA : ablate.isEmpty = false := by simp [List.isEmpty_iff, hne]
  unfold apply_ablation
  rw [hA]
  simp only [Bool.false_eq_true, if_false]
  rw [ablationLoop_spec ablate (snippets.zip scores) [] [] 0]
  exact ⟨by simp, by simp, keptAfterAblation_sublist ablate 0 _⟩

theorem apply_ablation_removal_criterion_witness :
    (apply_ablation [{ id := some "doc_1" }, { id := some "doc_2" }]
        [0.9, 0.8] ["doc_1"]).1 =
      (keptAfterAblation ["doc_1"] 0
        ([{ id := some "doc_1" }, { id := some "doc_2" }].zip [0.9, 0.8])).map
        Prod.fst ∧
    (apply_ablation [{ id := some "doc_1" }, { id := some "doc_2" }]
        [0.9, 0.8] ["doc_1"]).2.1 =
      (keptAfterAblation ["doc_1"] 0
        ([{ id := some "doc_1" }, { id := some "doc_2" }].zip [0.9, 0.8])).map
        Prod.snd ∧
    (keptAfterAblation ["doc_1"] 0
        ([{ id := some "doc_1" }, { id := some "doc_2" }].zip [0.9, 0.8])).Sublist
      ([{ id := some "doc_1" }, { id := some "doc_2" }].zip [0.9, 0.8]) :=
  apply_ablation_removal_criterion _ _ _ rfl (by simp)

/-- C5 counterexample: at the concrete input `([], [], [])` the function does
not return `none` as its note — the source returns the empty *string*. -/
theorem apply_ablation_identity_counterexample :
    apply_ablation ([] : List Snippet) ([] : List ℚ) ([] : List String) ≠
      (([] : List Snippet), ([] : List ℚ), (none : Option String)) := by
  simp [apply_ablation]

/-- C5 amended: with an empty exclusion list, `apply_ablation` returns the
input sequences unchanged together with the empty-string note `some ""`
(a present — though falsy — string, not an absent `None`). -/
theorem apply_ablation_empty_exclusions_identity (P : List Snippet)
    (S : List ℚ) : apply_ablation P S [] = (P, S, some "") := rfl

/-- C6: whenever the exclusion list is non-empty the note is exactly
`"Excluded {removedCount} passages based on ablation criteria: {ids}"` with
the comma-joined exclusion identifiers, even when nothing was removed; and the
doc_1/doc_2/doc_3 scenario keeps only doc_2 and reports 2 removals. -/
theorem apply_ablation_note_format (snippets : List Snippet) (scores : List ℚ)
    (ablate : List String) (hne : ablate ≠ []) :
    (apply_ablation snippets scores ablate).2.2 =
      some ("Excluded " ++
        toString (removedAfterAblation ablate 0 (snippets.zip scores)) ++
        " passages based on ablation criteria: " ++
        String.intercalate ", " ablate) ∧
    apply_ablation
        [{ id := some "doc_1" }, { id := some "doc_2" }, { id := some "doc_3" }]
        [0.9, 0.8, 0.7] ["doc_1", "doc_3"] =
      ([{ id := some "doc_2" }], [0.8],
        some "Excluded 2 passages based on ablation criteria: doc_1, doc_3") := by
  constructor
  · have hA : ablate.isEmpty = false := by simp [List.isEmpty_iff, hne]
    unfold apply_ablation
    rw [hA]
    simp only [Bool.false_eq_true, if_false]
    rw [ablationLoop_spec ablate (snippets.zip scores) [] [] 0]
    simp
  · rfl

theorem apply_ablation_note_format_witness :
    (apply_ablation
        [{ id := some "doc_1" }, { id := some "doc_2" }, { id := some "doc_3" }]
        [0.9, 0.8, 0.7] ["doc_1", "doc_3"]).2.2 =
      some ("Excluded " ++
        toString (removedAfterAblation ["doc_1", "doc_3"] 0
          ([{ id := some "doc_1" }, { id := some "doc_2" },
            { id := some "doc_3" }].zip [0.9, 0.8, 0.7])) ++
        " passages based on ablation criteria: " ++
        String.intercalate ", " ["doc_1", "doc_3"]) :=
  (apply_ablation_note_format
    [{ id := some "doc_1" }, { id := some "doc_2" }, { id := some "doc_3" }]
    [0.9, 0.8, 0.7] ["doc_1", "doc_3"] (by simp)).1

/-- The return shapes `query_medrag` accepts from `medrag_instance.answer`:
a 3-tuple, a dict with optional `answer`/`snippets`/`scores` keys, or any
other value (carrying its `str()` rendering and its truthiness). -/
inductive EngineResult where
  | triple (answer : String) (snippets : List Snippet) (scores : List ℚ)
  | dict (answer : Option String) (snippets : Option (List Snippet))
      (scores : Option (List ℚ))
  | other (asString : String) (truthy : Bool)

/-- The clearly-labeled mock answer substituted when the engine raises. -/
def fallbackAnswer (query : String) : String :=
  "Based on current medical guidelines, regarding '" ++ query ++
    "': This is a mock response for testing purposes. In a real deployment, " ++
    "MedRAG would provide evidence-based medical information."

/-- The two synthetic passages substituted when the engine raises. -/
def fallbackSnippets (query : String) : List Snippet :=
  [{ title := some "Pediatric Emergency Guidelines",
     content := some ("Mock medical information related to: " ++ query),
     id := some "test_textbook_001", start := some 0, end_ := some 100 },
   { title := some "Clinical Reference Manual",
     content := some ("Additional context for: " ++ query),
     id := some "test_manual_002", start := some 0, end_ := some 120 }]

/-- The answer-generation step of `query_medrag` (main.py lines 264-304):
normalize the engine's result shape, and if the engine call raised
(modelled by `.error`) substitute the fallback answer, the two synthetic
passages and scores `[0.92, 0.88]`.  The function is total — the engine
exception is consumed here, never re-raised. -/
def resolveEngineAnswer (query : String)
    (call : Except String EngineResult) : String × List Snippet × List ℚ :=
  match call with
  | .ok (.triple answer snippets scores) => (answer, snippets, scores)
  | .ok (.dict answer snippets scores) =>
      (answer.getD "", snippets.getD [], scores.getD [])
  | .ok (.other asString truthy) =>
      (if truthy then asString else "Unable to generate answer", [], [])
  | .error _ => (fallbackAnswer query, fallbackSnippets query, [0.92, 0.88])

/-- C9: whatever exception the engine call raises, the query step completes
with the clearly-labeled fallback answer and exactly two synthetic passages
scored 0.92 and 0.88; the exception value itself never reaches the result
(the outcome is independent of it), so it is not propagated to the caller. -/
theorem query_medrag_engine_failure_fallback (query err : String) :
    resolveEngineAnswer query (.error err) =
      (fallbackAnswer query, fallbackSnippets query, [0.92, 0.88]) ∧
    (fallbackSnippets query).length = 2 ∧
    (∀ err2 : String, resolveEngineAnswer query (.error err) =
      resolveEngineAnswer query (.error err2)) :=
  ⟨rfl, rfl, fun _ => rfl⟩
